import Mathlib

/-!
Verification of the Pi_Ray ROV control core against its design documents.

The repository ships the browser dashboard (script.js, scripts.js and the
unnamed dashboard variants) together with the design plan for the depth-hold
PID controller and the thruster arbitration layer.  The controller and the
arbiter themselves (depth_hold.py and the motor integration) are not part of
the checked-in sources: only their declarations, the design plan, and the
HTTP callers in the dashboard are.  Those missing parts are therefore
modelled here from the specification; the dashboard client logic is
translated directly from script.js.

Numbers are embedded as rationals (ℚ); IEEE values that may be NaN or
infinite are embedded as the type FVal, with the non-finite cases explicit.
-/

namespace PiRay

/-- Modelled from the spec: an f64 value as seen at the arbitration and
tuning boundary, where NaN and infinities must be handled explicitly.
A finite value carries its rational magnitude. -/
inductive FVal where
  | finite (q : ℚ)
  | nan
  | posInf
  | negInf
deriving DecidableEq, Repr

/-- Modelled from the spec: a non-finite value is "treated as 0 for that
axis"; a finite value is used as-is. -/
def FVal.toQ : FVal → ℚ
  | .finite q => q
  | .nan => 0
  | .posInf => 0
  | .negInf => 0

/-- Whether an FVal is a finite number. -/
def FVal.isFinite : FVal → Bool
  | .finite _ => true
  | _ => false

/-- Absolute value on ℚ, written with an explicit conditional so that the
kernel can evaluate it on concrete inputs. -/
def qAbs (x : ℚ) : ℚ := if x < 0 then -x else x

/-- Symmetric clamp of x to the interval from -m to m, written with
explicit conditionals so that the kernel can evaluate it. -/
def clampMag (x m : ℚ) : ℚ := if x < -m then -m else if m < x then m else x

/-- Modelled from the spec: the static configuration of the depth-hold
controller (deadband, anti-windup limit, output clamp, maximum operating
depth, nominal tick interval), fixed at start-up. -/
structure Config where
  deadband_ft : ℚ
  integral_limit : ℚ
  max_output : ℚ
  max_depth_ft : ℚ
  nominal_dt : ℚ
deriving DecidableEq, Repr

/-- Modelled from the spec: the controller state missing from the sources
(depth_hold.py).  It merges PIDState (kp, ki, kd, integral, last_error,
last_update) with the enable flag and the target depth. -/
structure Controller where
  kp : ℚ
  ki : ℚ
  kd : ℚ
  integral : ℚ
  last_error : ℚ
  last_update : Option ℚ
  target_depth_ft : ℚ
  enabled : Bool
deriving DecidableEq, Repr

/-- Modelled from the spec: the synchronous error taxonomy of the
controller operations. -/
inductive CtrlError where
  | invalidGains
  | invalidTarget
deriving DecidableEq, Repr

/-- Modelled from the spec: enable() is a no-op when already enabled;
otherwise it sets the target to the current telemetry depth, resets
integral and last_error to 0 and sets enabled. -/
def enable (currentDepth : ℚ) (c : Controller) : Controller :=
  if c.enabled then c
  else { c with target_depth_ft := currentDepth, integral := 0, last_error := 0,
                enabled := true }

/-- Modelled from the spec: disable() clears the enabled flag and nothing
else. -/
def disable (c : Controller) : Controller := { c with enabled := false }

/-- Modelled from the spec: set_target updates the target depth without
resetting integral or derivative state, and fails with InvalidTarget when
the depth is negative or exceeds the configured maximum operating depth. -/
def set_target (cfg : Config) (d : ℚ) (c : Controller) : Except CtrlError Controller :=
  if d < 0 ∨ cfg.max_depth_ft < d then .error .invalidTarget
  else .ok { c with target_depth_ft := d }

/-- Modelled from the spec: tune validates that all three gains are finite
and non-negative; on success it updates the gains in place without
resetting the integral, otherwise it fails with InvalidGains and mutates
nothing. -/
def tune (nkp nki nkd : FVal) (c : Controller) : Except CtrlError Controller :=
  if nkp.isFinite && nki.isFinite && nkd.isFinite
      && decide (0 ≤ nkp.toQ) && decide (0 ≤ nki.toQ) && decide (0 ≤ nkd.toQ) then
    .ok { c with kp := nkp.toQ, ki := nki.toQ, kd := nkd.toQ }
  else .error .invalidGains

/-- Modelled from the spec: the core update(current_depth, now) algorithm of
the missing depth_hold.py.  When disabled it returns 0 and mutates nothing.
When enabled it computes the error, applies the deadband to the
proportional and integral terms, integrates with anti-windup clamping,
forms the derivative from the true error, clamps the PID sum to the output
limit, and records last_error and last_update.  On the first call after
enabling (last_update is none) the derivative and the integral accumulation
are skipped. -/
def update (cfg : Config) (depth now : ℚ) (c : Controller) : ℚ × Controller :=
  if c.enabled then
    let error := c.target_depth_ft - depth
    let eEff := if qAbs error < cfg.deadband_ft then 0 else error
    match c.last_update with
    | none =>
        let output := clampMag (c.kp * eEff + c.ki * c.integral) cfg.max_output
        (output, { c with last_error := error, last_update := some now })
    | some t =>
        let dt := now - t
        let integral' := clampMag (c.integral + eEff * dt) cfg.integral_limit
        let derivative := if 0 < dt then (error - c.last_error) / dt else 0
        let output := clampMag (c.kp * eEff + c.ki * integral' + c.kd * derivative)
          cfg.max_output
        (output, { c with integral := integral', last_error := error,
                          last_update := some now })
  else (0, c)

/-- Modelled from the spec: the per-tick snapshot of manual pilot input.
Each axis is carried as a raw f64-like value because the arbiter, not the
producer, is responsible for neutralizing NaN and infinities. -/
structure ManualCommand where
  surge : FVal
  sway : FVal
  yaw_rate : FVal
  ascend : FVal
  descend : FVal
deriving DecidableEq, Repr

/-- Modelled from the spec: the process-wide safety state consulted by the
arbiter on every tick. -/
structure SafetyState where
  emergency_stopped : Bool
  max_output : ℚ
deriving DecidableEq, Repr

/-- Modelled from the spec: the fixed set of configured thruster channels.
The four horizontal thrusters plus the descend and ascend vertical
channels shown by the dashboard's PWM status panel. -/
inductive Thruster where
  | fwd_left
  | fwd_right
  | aft_left
  | aft_right
  | descend
  | ascend
deriving DecidableEq, Repr

/-- Modelled from the spec: the fixed linear mixing matrix from the three
horizontal manual axes onto the four horizontal thrusters, each weighted
sum clamped to the interval from -1 to 1; the vertical channels are not
driven by this mix. -/
def mixHorizontal (surge sway yaw : ℚ) : Thruster → ℚ
  | .fwd_left => clampMag (surge + sway + yaw) 1
  | .fwd_right => clampMag (surge - sway - yaw) 1
  | .aft_left => clampMag (surge - sway + yaw) 1
  | .aft_right => clampMag (surge + sway - yaw) 1
  | .descend => 0
  | .ascend => 0

/-- Modelled from the spec: the missing ThrusterArbiter.arbitrate.  With an
emergency stop every channel is 0.  Otherwise the horizontal channels come
from the manual mix; the vertical duty is the manual descend minus ascend
when depth hold is off, and exactly the controller correction when it is
on; the signed vertical duty is split onto the unidirectional descend and
ascend channels; and max_output is applied as a final clamp to every duty
cycle.  Non-finite inputs read as 0 through FVal.toQ. -/
def arbitrate (m : ManualCommand) (dc : Option FVal) (s : SafetyState) :
    Thruster → ℚ := fun t =>
  if s.emergency_stopped then 0
  else
    let v : ℚ :=
      match dc with
      | none => clampMag (m.descend.toQ - m.ascend.toQ) 1
      | some fv => fv.toQ
    let base : ℚ :=
      match t with
      | .descend => if 0 < v then v else 0
      | .ascend => if v < 0 then -v else 0
      | th => mixHorizontal m.surge.toQ m.sway.toQ m.yaw_rate.toQ th
    clampMag base s.max_output

/-- Replace every non-finite axis of a manual command by a finite 0,
leaving finite axes unchanged. -/
def sanitizeManual (m : ManualCommand) : ManualCommand :=
  { surge := .finite m.surge.toQ, sway := .finite m.sway.toQ,
    yaw_rate := .finite m.yaw_rate.toQ, ascend := .finite m.ascend.toQ,
    descend := .finite m.descend.toQ }

/-- Replace a non-finite depth correction by a finite 0, leaving a finite
correction (and the disabled case) unchanged. -/
def sanitizeCorrection (dc : Option FVal) : Option FVal :=
  dc.map fun fv => .finite fv.toQ

/-- Modelled from the spec: the state carried by the periodic control loop
around the controller, tracking consecutive missed telemetry ticks and the
stale-telemetry flag surfaced through status. -/
structure LoopState where
  ctrl : Controller
  missed : ℕ
  stale : Bool
deriving DecidableEq, Repr

/-- Modelled from the spec: one control tick consuming the result of
TelemetrySource.read.  A fresh sample runs the controller update and
clears the stale tracking; a missed sample increments the counter, and on
reaching the three-tick stale-data timeout the controller is disabled
automatically and the StaleTelemetry condition is reported. -/
def tick (cfg : Config) (sample : Option ℚ) (now : ℚ) (st : LoopState) : LoopState :=
  match sample with
  | some depth =>
      { ctrl := (update cfg depth now st.ctrl).2, missed := 0, stale := false }
  | none =>
      let m := st.missed + 1
      if 3 ≤ m then { ctrl := disable st.ctrl, missed := m, stale := true }
      else { ctrl := st.ctrl, missed := m, stale := st.stale }

/-- Modelled from the spec: an external control request delivered across
the task boundary, applied atomically at the start of the next tick. -/
inductive Cmd where
  | noop
  | enableAt (d : ℚ)
  | disableNow
  | setTarget (d : ℚ)
  | tuneGains (p i dg : FVal)
deriving DecidableEq, Repr

/-- Result of a fallible controller operation as the caller sees it: on a
synchronous rejection the prior state is retained. -/
def orKeep (r : Except CtrlError Controller) (c : Controller) : Controller :=
  match r with
  | .ok c' => c'
  | .error _ => c

/-- Modelled from the spec: apply one external control request to the
controller state at the start of a tick. -/
def applyCmd (cfg : Config) (cmd : Cmd) (c : Controller) : Controller :=
  match cmd with
  | .noop => c
  | .enableAt d => enable d c
  | .disableNow => disable c
  | .setTarget d => orKeep (set_target cfg d c) c
  | .tuneGains p i dg => orKeep (tune p i dg c) c

/-- Modelled from the spec: one full control-loop step, an externally
requested command applied at the start of the tick followed by the
telemetry processing of that tick. -/
def loopStep (cfg : Config) (cmd : Cmd) (sample : Option ℚ) (now : ℚ)
    (st : LoopState) : LoopState :=
  tick cfg sample now { st with ctrl := applyCmd cfg cmd st.ctrl }

/-- Modelled from the spec: the controller state at vehicle start, with the
design plan's default gains, disabled and with clean PID state. -/
def initController : Controller :=
  { kp := 1/2, ki := 1/10, kd := 1/5, integral := 0, last_error := 0,
    last_update := none, target_depth_ft := 0, enabled := false }

/-- Modelled from the spec: the loop state at vehicle start. -/
def initLoop : LoopState := { ctrl := initController, missed := 0, stale := false }

/-- States of the control loop reachable from start by any sequence of
commands and telemetry samples. -/
inductive Reachable (cfg : Config) : LoopState → Prop where
  | init : Reachable cfg initLoop
  | step : ∀ (cmd : Cmd) (sample : Option ℚ) (now : ℚ) (st : LoopState),
      Reachable cfg st → Reachable cfg (loopStep cfg cmd sample now st)

/-- State transition of the dashboard client flag depthHoldEnabled made by
toggleDepthHold in script.js.  The response argument is none when the
fetch or JSON parse throws (the catch branch leaves the flag unchanged);
otherwise it carries the parsed success field.  When the flag is clear the
enable endpoint is called and the flag is set exactly when the response
reports success; when the flag is set the disable endpoint is called and
the flag is cleared without inspecting the response body. -/
def toggleDepthHold (flag : Bool) (resp : Option Bool) : Bool :=
  if flag then
    match resp with
    | none => flag
    | some _ => false
  else
    match resp with
    | none => flag
    | some success => if success then true else flag

/-- State transition of the dashboard client flag depthHoldEnabled made by
pollDepthHoldStatus in script.js.  A successful poll overwrites the flag
with the server's enabled field before any DOM access can throw; a failed
poll is swallowed and leaves the flag unchanged. -/
def pollDepthHoldStatus (flag : Bool) (resp : Option Bool) : Bool :=
  match resp with
  | none => flag
  | some enabled => enabled

/-- Concrete configuration used to exercise the theorems: the design
plan's defaults (deadband 0.1 ft, output limit 80 percent, 50 ms tick). -/
def cfg0 : Config :=
  { deadband_ft := 1/10, integral_limit := 2, max_output := 4/5,
    max_depth_ft := 100, nominal_dt := 1/20 }

/-- Concrete enabled controller state used to exercise the theorems. -/
def ctrl0 : Controller :=
  { kp := 1/2, ki := 1/10, kd := 1/5, integral := 0, last_error := 0,
    last_update := some 0, target_depth_ft := 10, enabled := true }

theorem abs_clampMag_le (x m : ℚ) (hm : 0 ≤ m) : |clampMag x m| ≤ m := by
  unfold clampMag
  rw [abs_le]
  split_ifs with h1 h2 <;> constructor <;> linarith

theorem abs_clampMag_le_abs (x m : ℚ) : |clampMag x m| ≤ |m| := by
  unfold clampMag
  split_ifs with h1 h2
  · simp [abs_neg]
  · exact le_rfl
  · exact le_trans (abs_le.mpr ⟨by linarith, by linarith⟩) (le_abs_self m)

theorem clampMag_zero (m : ℚ) (hm : 0 ≤ m) : clampMag 0 m = 0 := by
  unfold clampMag
  split_ifs with h1 h2 <;> linarith

theorem clampMag_eq_min (y L : ℚ) (h : -L ≤ y) : clampMag y L = min L y := by
  unfold clampMag
  split_ifs with h1 h2
  · linarith
  · exact (min_eq_left (by linarith)).symm
  · exact (min_eq_right (by linarith)).symm

/-- Claim C1: for every enabled controller state and every current depth
and time, the value returned by update is clamped to the interval from
-max_output to max_output, regardless of the magnitude of the depth
error. -/
theorem update_output_saturated (cfg : Config) (c : Controller) (depth now : ℚ)
    (hen : c.enabled = true) (hmo : 0 ≤ cfg.max_output) :
    |(update cfg depth now c).1| ≤ cfg.max_output := by
  unfold update
  rw [hen]
  rcases hl : c.last_update with _ | t <;>
    simp only [if_true, hl] <;>
    exact abs_clampMag_le _ _ hmo

/-- Witness for C1 at the design defaults with a 10 ft depth error. -/
theorem update_output_saturated_witness :
    |(update cfg0 0 1 ctrl0).1| ≤ cfg0.max_output :=
  update_output_saturated cfg0 ctrl0 0 1 rfl (by norm_num [cfg0])

/-- Claim C2: with emergency_stopped set, arbitrate maps every configured
thruster to duty cycle 0, for every manual command and every depth
correction. -/
theorem arbitrate_estop_all_zero (m : ManualCommand) (dc : Option FVal)
    (mo : ℚ) (t : Thruster) :
    arbitrate m dc { emergency_stopped := true, max_output := mo } t = 0 := by
  simp [arbitrate]

/-- Claim C3: while depth hold is enabled, the vertical channels of the
arbitrated ThrusterMap do not depend on the manual ascend and descend
inputs: replacing those two axes by anything leaves both vertical duty
cycles unchanged. -/
theorem arbitrate_vertical_ignores_manual (m : ManualCommand) (a d v : FVal)
    (s : SafetyState) :
    arbitrate { m with ascend := a, descend := d } (some v) s .descend
        = arbitrate m (some v) s .descend ∧
    arbitrate { m with ascend := a, descend := d } (some v) s .ascend
        = arbitrate m (some v) s .ascend := by
  constructor <;> rfl

/-- Claim C4: set_target on a valid depth updates only target_depth_ft
(the record update keeps integral, last_error and the gains of the prior
state), and on a negative or over-maximum depth it fails with
InvalidTarget, leaving the caller with the prior state. -/
theorem set_target_frame (cfg : Config) (d : ℚ) (c : Controller) :
    (0 ≤ d → d ≤ cfg.max_depth_ft →
      set_target cfg d c = Except.ok { c with target_depth_ft := d }) ∧
    (d < 0 ∨ cfg.max_depth_ft < d →
      set_target cfg d c = Except.error CtrlError.invalidTarget) := by
  constructor
  · intro h1 h2
    unfold set_target
    rw [if_neg]
    push_neg
    exact ⟨by linarith, h2⟩
  · intro h
    unfold set_target
    rw [if_pos h]

/-- Witness for C4 at a valid 3 ft target. -/
theorem set_target_frame_witness :
    set_target cfg0 3 ctrl0 = Except.ok { ctrl0 with target_depth_ft := 3 } :=
  (set_target_frame cfg0 3 ctrl0).1 (by norm_num) (by norm_num [cfg0])

/-- Claim C5: enabling while disabled at depth D sets the target to D,
resets integral and last_error, sets enabled, and the immediately
following update at current depth D returns 0; enabling while already
enabled changes nothing. -/
theorem enable_semantics (cfg : Config) (c : Controller) (D now : ℚ)
    (hdis : c.enabled = false) (hmo : 0 ≤ cfg.max_output)
    (hil : 0 ≤ cfg.integral_limit) :
    (enable D c).target_depth_ft = D ∧ (enable D c).integral = 0 ∧
    (enable D c).last_error = 0 ∧ (enable D c).enabled = true ∧
    (update cfg D now (enable D c)).1 = 0 ∧
    (∀ c' : Controller, c'.enabled = true → enable D c' = c') := by
  have hc : enable D c = { c with target_depth_ft := D, integral := 0,
                                  last_error := 0, enabled := true } := by
    simp [enable, hdis]
  refine ⟨by rw [hc], by rw [hc], by rw [hc], by rw [hc], ?_, ?_⟩
  · rw [hc]
    rcases hl : c.last_update with _ | t
    · simp [update, hl, clampMag_zero _ hmo]
    · simp [update, hl, clampMag_zero _ hmo, clampMag_zero _ hil]
  · intro c' h
    simp [enable, h]

/-- Witness for C5: enable from the start state at 7 ft, then update at
7 ft returns 0. -/
theorem enable_semantics_witness :
    (update cfg0 7 1 (enable 7 initController)).1 = 0 :=
  (enable_semantics cfg0 initController 7 1 rfl (by norm_num [cfg0])
    (by norm_num [cfg0])).2.2.2.2.1

/-- Claim C7: tune succeeds exactly when all three gains are finite and
non-negative, updating the gains in place without resetting the integral
(the record update keeps every other field); otherwise it fails with
InvalidGains and the caller retains the prior state. -/
theorem tune_validation (nkp nki nkd : FVal) (c : Controller) :
    (nkp.isFinite = true ∧ nki.isFinite = true ∧ nkd.isFinite = true ∧
        0 ≤ nkp.toQ ∧ 0 ≤ nki.toQ ∧ 0 ≤ nkd.toQ →
      tune nkp nki nkd c
        = Except.ok { c with kp := nkp.toQ, ki := nki.toQ, kd := nkd.toQ }) ∧
    (¬ (nkp.isFinite = true ∧ nki.isFinite = true ∧ nkd.isFinite = true ∧
        0 ≤ nkp.toQ ∧ 0 ≤ nki.toQ ∧ 0 ≤ nkd.toQ) →
      tune nkp nki nkd c = Except.error CtrlError.invalidGains) := by
  have hiff : (nkp.isFinite && nki.isFinite && nkd.isFinite
      && decide (0 ≤ nkp.toQ) && decide (0 ≤ nki.toQ) && decide (0 ≤ nkd.toQ)) = true
      ↔ (nkp.isFinite = true ∧ nki.isFinite = true ∧ nkd.isFinite = true ∧
         0 ≤ nkp.toQ ∧ 0 ≤ nki.toQ ∧ 0 ≤ nkd.toQ) := by
    simp [Bool.and_eq_true, decide_eq_true_eq, and_assoc]
  constructor <;> intro h <;> unfold tune
  · rw [if_pos (hiff.mpr h)]
  · rw [if_neg (fun hc => h (hiff.mp hc))]

/-- Witness for C7 at finite non-negative gains. -/
theorem tune_validation_witness :
    tune (FVal.finite 1) (FVal.finite 0) (FVal.finite (1/4)) ctrl0
      = Except.ok { ctrl0 with kp := (FVal.finite 1).toQ,
                               ki := (FVal.finite 0).toQ,
                               kd := (FVal.finite (1/4)).toQ } :=
  (tune_validation (FVal.finite 1) (FVal.finite 0) (FVal.finite (1/4)) ctrl0).1
    ⟨rfl, rfl, rfl, by norm_num [FVal.toQ], by norm_num [FVal.toQ],
     by norm_num [FVal.toQ]⟩

/-- Counterexample to C6 as stated: a constant positive error of 1/20 ft
lies inside the 1/10 ft deadband, so the integral does not grow at all and
never reaches the integral limit, although the error is positive and the
integral is strictly below the limit. -/
theorem integral_growth_counterexample :
    (0 : ℚ) < 1/20 ∧ ctrl0.enabled = true ∧
    ctrl0.integral < cfg0.integral_limit ∧
    (update cfg0 (ctrl0.target_depth_ft - 1/20) 1 ctrl0).2.integral
      = ctrl0.integral := by
  refine ⟨by norm_num, rfl, by norm_num [ctrl0, cfg0], ?_⟩
  norm_num [update, clampMag, qAbs, ctrl0, cfg0]

/-- Claim C6 (amended): the integral always stays within the closed
interval from -integral_limit to integral_limit across every controller
operation, and under a constant positive error e that is at least the
deadband and a positive dt, each update raises the integral to the minimum
of integral_limit and integral + e*dt, so it grows monotonically until the
limit and then holds. -/
theorem integral_windup_invariant (cfg : Config) (c : Controller)
    (hL : 0 ≤ cfg.integral_limit) (hI : |c.integral| ≤ cfg.integral_limit) :
    (∀ D, |(enable D c).integral| ≤ cfg.integral_limit) ∧
    |(disable c).integral| ≤ cfg.integral_limit ∧
    (∀ d c', set_target cfg d c = Except.ok c' →
      |c'.integral| ≤ cfg.integral_limit) ∧
    (∀ p i dg c', tune p i dg c = Except.ok c' →
      |c'.integral| ≤ cfg.integral_limit) ∧
    (∀ depth now, |(update cfg depth now c).2.integral| ≤ cfg.integral_limit) ∧
    (∀ e t now, c.enabled = true → c.last_update = some t →
      cfg.deadband_ft ≤ e → 0 < e → t < now →
      (update cfg (c.target_depth_ft - e) now c).2.integral
          = min cfg.integral_limit (c.integral + e * (now - t)) ∧
      c.integral ≤ (update cfg (c.target_depth_ft - e) now c).2.integral) := by
  have habs := abs_le.mp hI
  refine ⟨?_, ?_, ?_, ?_, ?_, ?_⟩
  · intro D
    unfold enable
    split_ifs
    · exact hI
    · simpa using hL
  · simpa [disable] using hI
  · intro d c' h
    unfold set_target at h
    split_ifs at h
    cases h
    simpa using hI
  · intro p i dg c' h
    unfold tune at h
    split_ifs at h
    cases h
    simpa using hI
  · intro depth now
    unfold update
    cases hb : c.enabled
    · simpa using hI
    · rcases hl : c.last_update with _ | t
      · simpa [hl] using hI
      · simp only [hl]
        exact abs_clampMag_le _ _ hL
  · intro e t now hen hl hdb he hdt
    have hedt : 0 ≤ e * (now - t) := mul_nonneg (le_of_lt he) (by linarith)
    have hlow : -cfg.integral_limit ≤ c.integral + e * (now - t) := by linarith
    have hrw : c.target_depth_ft - (c.target_depth_ft - e) = e := by ring
    have hq : qAbs e = e := by
      unfold qAbs
      rw [if_neg (by linarith)]
    have key : (update cfg (c.target_depth_ft - e) now c).2.integral
        = clampMag (c.integral + e * (now - t)) cfg.integral_limit := by
      unfold update
      rw [hen]
      simp [hl, hrw, hq, if_neg (show ¬ e < cfg.deadband_ft by linarith)]
    rw [key, clampMag_eq_min _ _ hlow]
    exact ⟨rfl, le_min (by linarith) (by linarith)⟩

/-- Witness for C6 (amended): with a 1 ft error, at the deadband or above,
the integral rises from 0 to 1 (the minimum of the limit 2 and 0 + 1*1). -/
theorem integral_windup_invariant_witness :
    (update cfg0 (ctrl0.target_depth_ft - 1) 1 ctrl0).2.integral
        = min cfg0.integral_limit (ctrl0.integral + 1 * (1 - 0)) ∧
    ctrl0.integral ≤ (update cfg0 (ctrl0.target_depth_ft - 1) 1 ctrl0).2.integral :=
  (integral_windup_invariant cfg0 ctrl0 (by norm_num [cfg0])
      (by norm_num [ctrl0, cfg0])).2.2.2.2.2 1 0 1 rfl rfl
    (by norm_num [cfg0]) (by norm_num) (by norm_num)

/-- Claim C8: arbitrate yields the same ThrusterMap when every non-finite
manual axis and non-finite depth correction is replaced by a finite 0, and
every duty cycle it emits is bounded by the magnitude of the configured
max_output (so a NaN or infinity is never propagated to the output). -/
theorem arbitrate_neutralizes_nonfinite (m : ManualCommand) (dc : Option FVal)
    (s : SafetyState) :
    arbitrate m dc s = arbitrate (sanitizeManual m) (sanitizeCorrection dc) s ∧
    (∀ t, |arbitrate m dc s t| ≤ |s.max_output|) := by
  constructor
  · rcases dc with _ | fv <;> rfl
  · intro t
    unfold arbitrate
    split_ifs
    · simp
    · exact abs_clampMag_le_abs _ _

theorem loopStep_none_missed (cfg : Config) (cmd : Cmd) (now : ℚ)
    (st : LoopState) : (loopStep cfg cmd none now st).missed = st.missed + 1 := by
  simp only [loopStep, tick]
  split_ifs <;> rfl

theorem loopStep_none_disables (cfg : Config) (cmd : Cmd) (now : ℚ)
    (st : LoopState) (h : 2 ≤ st.missed) :
    (loopStep cfg cmd none now st).ctrl.enabled = false ∧
    (loopStep cfg cmd none now st).stale = true := by
  simp only [loopStep, tick]
  rw [if_pos (by omega)]
  exact ⟨rfl, rfl⟩

/-- Claim C9: three consecutive missed telemetry ticks from an enabled
state leave the controller disabled with the stale flag reported, whatever
commands arrive in between; and in every reachable loop state, three or
more consecutive missed ticks imply the controller is disabled. -/
theorem stale_telemetry_auto_disable (cfg : Config) :
    (∀ (st : LoopState) (c1 c2 c3 : Cmd) (t1 t2 t3 : ℚ),
      st.ctrl.enabled = true →
      (loopStep cfg c3 none t3 (loopStep cfg c2 none t2
          (loopStep cfg c1 none t1 st))).ctrl.enabled = false ∧
      (loopStep cfg c3 none t3 (loopStep cfg c2 none t2
          (loopStep cfg c1 none t1 st))).stale = true) ∧
    (∀ st : LoopState, Reachable cfg st → 3 ≤ st.missed →
      st.ctrl.enabled = false) := by
  constructor
  · intro st c1 c2 c3 t1 t2 t3 _hen
    apply loopStep_none_disables
    rw [loopStep_none_missed, loopStep_none_missed]
    omega
  · intro st hr
    induction hr with
    | init => intro h; simp [initLoop] at h
    | step cmd sample now st' hr' ih =>
        intro h3
        rcases sample with _ | depth
        · rw [loopStep_none_missed] at h3
          exact (loopStep_none_disables cfg cmd now st' (by omega)).1
        · simp [loopStep, tick] at h3

/-- Witness for C9: three missed ticks from a concrete enabled state, and
the reachable state obtained from start by three missed ticks. -/
theorem stale_telemetry_auto_disable_witness :
    ((loopStep cfg0 Cmd.noop none 3 (loopStep cfg0 Cmd.noop none 2
        (loopStep cfg0 Cmd.noop none 1
          { ctrl := ctrl0, missed := 0, stale := false }))).ctrl.enabled = false ∧
     (loopStep cfg0 Cmd.noop none 3 (loopStep cfg0 Cmd.noop none 2
        (loopStep cfg0 Cmd.noop none 1
          { ctrl := ctrl0, missed := 0, stale := false }))).stale = true) ∧
    (loopStep cfg0 Cmd.noop none 3 (loopStep cfg0 Cmd.noop none 2
        (loopStep cfg0 Cmd.noop none 1 initLoop))).ctrl.enabled = false := by
  refine ⟨(stale_telemetry_auto_disable cfg0).1
      { ctrl := ctrl0, missed := 0, stale := false }
      Cmd.noop Cmd.noop Cmd.noop 1 2 3 rfl, ?_⟩
  refine (stale_telemetry_auto_disable cfg0).2 _ ?_ ?_
  · exact Reachable.step Cmd.noop none 3 _ (Reachable.step Cmd.noop none 2 _
      (Reachable.step Cmd.noop none 1 _ Reachable.init))
  · rw [loopStep_none_missed, loopStep_none_missed, loopStep_none_missed]
    omega

/-- Claim C10: the dashboard flag depthHoldEnabled is set by
toggleDepthHold exactly to the enable response's success value when it was
clear, is cleared on any completed disable request without inspecting the
response, is left alone when a request throws, and is overwritten by every
successful status poll with the server-reported enabled value. -/
theorem client_flag_sync :
    (∀ s : Bool, toggleDepthHold false (some s) = s) ∧
    (∀ s : Bool, toggleDepthHold true (some s) = false) ∧
    (∀ flag : Bool, toggleDepthHold flag none = flag) ∧
    (∀ flag en : Bool, pollDepthHoldStatus flag (some en) = en) := by
  refine ⟨?_, ?_, ?_, ?_⟩ <;> decide

end PiRay
